import Mathlib

/-!
Verification development for the PNG chunk codec in `src/chunk_type.rs` and
`src/chunk.rs`.  Bytes are modelled as `Nat` values below 256, byte buffers as
`List Nat`, Rust strings as lists of Unicode scalar values (`List Nat`), and
fallible Rust operations as `Except`.  A Rust `unimplemented!()` body or a
panicking operation (slice out of range, `Result::unwrap` on `Err`) is
modelled by `Option`, with `none` standing for the panic.
-/

set_option autoImplicit false
set_option maxRecDepth 40000

namespace PngSecret

/-- `u8::is_ascii_alphabetic` / `char::is_ascii_alphabetic`: code is in
`A`-`Z` (65-90) or `a`-`z` (97-122). -/
def isAsciiAlphabetic (b : Nat) : Bool :=
  (65 ≤ b && b ≤ 90) || (97 ≤ b && b ≤ 122)

/-- `ChunkTypeError` from `src/chunk_type.rs`. -/
inductive ChunkTypeError where
  | InvalidArray
  | InvalidString
deriving DecidableEq, Repr

/-- `ChunkType` from `src/chunk_type.rs`: a newtype over `[u8; 4]`.  The
4-byte array is modelled as a list (length 4 is guaranteed by every
constructor in the source because the Rust type is `[u8; 4]`). -/
structure ChunkType where
  bytes : List Nat
deriving DecidableEq, Repr

/-- `TryFrom<[u8; 4]> for ChunkType`: accept iff every byte is ASCII
alphabetic, storing the bytes verbatim; otherwise `ChunkTypeError::InvalidArray`. -/
def ChunkType.try_from (value : List Nat) : Except ChunkTypeError ChunkType :=
  if value.all isAsciiAlphabetic then .ok ⟨value⟩ else .error .InvalidArray

/-- UTF-8 encoding of one Unicode scalar value, as Rust `str` stores it. -/
def utf8EncodeChar (n : Nat) : List Nat :=
  if n < 128 then [n]
  else if n < 2048 then [192 + n / 64, 128 + n % 64]
  else if n < 65536 then [224 + n / 4096, 128 + n / 64 % 64, 128 + n % 64]
  else [240 + n / 262144, 128 + n / 4096 % 64, 128 + n / 64 % 64, 128 + n % 64]

/-- `str::as_bytes`: the UTF-8 encoding of a string (a list of scalar values). -/
def strAsBytes (s : List Nat) : List Nat :=
  (s.map utf8EncodeChar).flatten

/-- `<&[u8] as TryInto<[u8; 4]>>::try_into`: succeeds iff the slice has
exactly 4 elements. -/
def tryInto4 (v : List Nat) : Option (List Nat) :=
  if v.length = 4 then some v else none

/-- `FromStr for ChunkType` (`src/chunk_type.rs`): every char must be ASCII
alphabetic, then `s.as_bytes().try_into()` must produce a `[u8; 4]`;
either failure is `ChunkTypeError::InvalidString`. -/
def ChunkType.from_str (s : List Nat) : Except ChunkTypeError ChunkType :=
  if s.all isAsciiAlphabetic then
    match tryInto4 (strAsBytes s) with
    | some b => .ok ⟨b⟩
    | none => .error .InvalidString
  else .error .InvalidString

/-- `ChunkType::is_critical` in the source is `unimplemented!()`: it panics
on every input, modelled as `none`. -/
def ChunkType.is_critical (_ : ChunkType) : Option Bool := none

/-- `ChunkType::is_public` in the source is `unimplemented!()`: it panics on
every input, modelled as `none`. -/
def ChunkType.is_public (_ : ChunkType) : Option Bool := none

/-- `ChunkType::is_safe_to_copy` in the source is `unimplemented!()`: it
panics on every input, modelled as `none`. -/
def ChunkType.is_safe_to_copy (_ : ChunkType) : Option Bool := none

/-- `ChunkType::is_valid` in the source is `unimplemented!()`: it panics on
every input, modelled as `none`. -/
def ChunkType.is_valid (_ : ChunkType) : Option Bool := none

/-- `ChunkType::is_reserved_bit_valid` in the source is `unimplemented!()`:
it panics on every input, modelled as `none`. -/
def ChunkType.is_reserved_bit_valid (_ : ChunkType) : Option Bool := none

/-- One step of the reflected CRC-32 bit loop with polynomial `0xEDB88320`
(the zlib/PNG parameterization used by `crc32fast`). -/
def crc32Bit (c : Nat) : Nat :=
  if c % 2 = 1 then (c >>> 1) ^^^ 0xEDB88320 else c >>> 1

/-- Feed one byte into a CRC-32 state: xor it in, then run 8 bit steps. -/
def crc32Update (c b : Nat) : Nat :=
  crc32Bit (crc32Bit (crc32Bit (crc32Bit (crc32Bit (crc32Bit (crc32Bit (crc32Bit (c ^^^ b))))))))

/-- `crc32fast::hash`: CRC-32 (zlib/PNG parameterization) of a byte buffer,
with initial value and final xor `0xFFFFFFFF`. -/
def crc32 (data : List Nat) : Nat :=
  (data.foldl crc32Update 0xFFFFFFFF) ^^^ 0xFFFFFFFF

/-- `ChunkError` from `src/chunk.rs`. -/
inductive ChunkError where
  | InvalidArray
  | InvalidString
deriving DecidableEq, Repr

/-- `Chunk` from `src/chunk.rs`: length field, type tag, payload, stored CRC. -/
structure Chunk where
  length : Nat
  chunk_type : ChunkType
  data : List Nat
  crc : Nat
deriving DecidableEq, Repr

/-- `Chunk::new` in the source is `unimplemented!()`: it panics on every
input and never constructs a chunk, modelled as `none`. -/
def Chunk.new (_ : ChunkType) (_ : List Nat) : Option Chunk := none

/-- `u32::to_be_bytes`: big-endian 4-byte encoding of a 32-bit value. -/
def u32ToBe (n : Nat) : List Nat :=
  [n / 16777216 % 256, n / 65536 % 256, n / 256 % 256, n % 256]

/-- `u32::from_be_bytes`: big-endian interpretation of 4 bytes. -/
def u32FromBe (b : List Nat) : Nat :=
  b.foldl (fun acc x => acc * 256 + x) 0

/-- Rust slice indexing `v[a..b]` in its non-panicking case:
take elements `a` to `b` exclusive. -/
def sliceTD (v : List Nat) (a b : Nat) : List Nat :=
  (v.drop a).take (b - a)

/-- Rust slice indexing `v[a..b]` with the panic made explicit: `none` when
`a > b` or `b > v.len()`, where the Rust expression panics. -/
def rustSlice (v : List Nat) (a b : Nat) : Option (List Nat) :=
  if a ≤ b ∧ b ≤ v.length then some (sliceTD v a b) else none

/-- `Chunk::as_bytes` (`src/chunk.rs`): big-endian length, then the 4 type
bytes, then the payload, then the big-endian stored CRC. -/
def Chunk.as_bytes (c : Chunk) : List Nat :=
  u32ToBe c.length ++ c.chunk_type.bytes ++ c.data ++ u32ToBe c.crc

/-- `TryFrom<&[u8]> for Chunk` (`src/chunk.rs`), with every Rust slice
expression bounds-checked: `none` models a slicing panic, `some` the
returned `Result`.  Mirrors the source line by line: reject under 12 bytes,
read `length` from bytes 0..4, build the `ChunkType` from bytes 4..8
(mapping its error to `InvalidArray`), reject when the buffer is shorter
than `data_end = 8 + length`, copy bytes 8..data_end as the payload and
store `crc32fast::hash` of that payload. -/
def Chunk.try_from_checked (value : List Nat) : Option (Except ChunkError Chunk) :=
  if value.length < 12 then some (.error .InvalidArray)
  else
    match rustSlice value 0 4 with
    | none => none
    | some s04 =>
      match tryInto4 s04 with
      | none => some (.error .InvalidArray)
      | some length_bytes =>
        let length := u32FromBe length_bytes
        match rustSlice value 4 8 with
        | none => none
        | some s48 =>
          match tryInto4 s48 with
          | none => some (.error .InvalidArray)
          | some chunk_bytes =>
            match ChunkType.try_from chunk_bytes with
            | .error _ => some (.error .InvalidArray)
            | .ok chunk_type =>
              let data_end := 8 + length
              if value.length < data_end then some (.error .InvalidArray)
              else
                match rustSlice value 8 data_end with
                | none => none
                | some chunk_data_bytes =>
                  some (.ok ⟨length, chunk_type, chunk_data_bytes, crc32 chunk_data_bytes⟩)

/-- `TryFrom<&[u8]> for Chunk` as a total function, with the slice
expressions written as (take, drop) ranges; a theorem below proves it
agrees everywhere with the bounds-checked `Chunk.try_from_checked`, so no
slicing panic is reachable. -/
def Chunk.try_from (value : List Nat) : Except ChunkError Chunk :=
  if value.length < 12 then .error .InvalidArray
  else
    match tryInto4 (sliceTD value 0 4) with
    | none => .error .InvalidArray
    | some length_bytes =>
      let length := u32FromBe length_bytes
      match tryInto4 (sliceTD value 4 8) with
      | none => .error .InvalidArray
      | some chunk_bytes =>
        match ChunkType.try_from chunk_bytes with
        | .error _ => .error .InvalidArray
        | .ok chunk_type =>
          let data_end := 8 + length
          if value.length < data_end then .error .InvalidArray
          else
            let chunk_data_bytes := sliceTD value 8 data_end
            .ok ⟨length, chunk_type, chunk_data_bytes, crc32 chunk_data_bytes⟩

/-- Rust `str::from_utf8` validity and decoding, following the UTF-8
automaton of `core::str`: ASCII, 2-byte leads `C2`-`DF`, 3-byte leads with
the `E0`/`ED` special ranges (no overlongs, no surrogates), 4-byte leads
with the `F0`/`F4` special ranges (no overlongs, max `U+10FFFF`); `none`
when the bytes are not valid UTF-8. -/
def utf8Decode : List Nat → Option (List Nat)
  | [] => some []
  | b :: rest =>
    if b < 128 then
      match utf8Decode rest with
      | some t => some (b :: t)
      | none => none
    else if b < 194 then none
    else if b < 224 then
      match rest with
      | b1 :: rest1 =>
        if 128 ≤ b1 && b1 < 192 then
          match utf8Decode rest1 with
          | some t => some (((b - 192) * 64 + (b1 - 128)) :: t)
          | none => none
        else none
      | [] => none
    else if b < 240 then
      match rest with
      | b1 :: b2 :: rest2 =>
        if (if b = 224 then 160 else 128) ≤ b1 && b1 < (if b = 237 then 160 else 192)
            && 128 ≤ b2 && b2 < 192 then
          match utf8Decode rest2 with
          | some t => some (((b - 224) * 4096 + (b1 - 128) * 64 + (b2 - 128)) :: t)
          | none => none
        else none
      | _ => none
    else if b < 245 then
      match rest with
      | b1 :: b2 :: b3 :: rest3 =>
        if (if b = 240 then 144 else 128) ≤ b1 && b1 < (if b = 244 then 144 else 192)
            && 128 ≤ b2 && b2 < 192 && 128 ≤ b3 && b3 < 192 then
          match utf8Decode rest3 with
          | some t => some (((b - 240) * 262144 + (b1 - 128) * 4096 + (b2 - 128) * 64 + (b3 - 128)) :: t)
          | none => none
        else none
      | _ => none
    else none

/-- `Chunk::data_as_string` (`src/chunk.rs`): `from_utf8(&self.data).unwrap()`
followed by `Ok(..)`.  The `unwrap` panics when the payload is not valid
UTF-8, modelled as `none`; otherwise the decoded text is returned as `Ok`
(the error side of the Rust `Result<String, String>` is never produced). -/
def Chunk.data_as_string (c : Chunk) : Option (Except (List Nat) (List Nat)) :=
  match utf8Decode c.data with
  | some t => some (.ok t)
  | none => none

/-! ### Test fixture from the repository -/

/-- The 42-byte secret-message payload used throughout the tests. -/
def msgBytes : List Nat :=
  "This is where your secret message will be!".data.map Char.toNat

/-- The type tag `RuSt` as bytes. -/
def rustBytes : List Nat := [82, 117, 83, 116]

/-- The 54-byte test frame: length 42, tag `RuSt`, payload, wire CRC
`2882656334`. -/
def fixtureFrame : List Nat :=
  u32ToBe 42 ++ rustBytes ++ msgBytes ++ u32ToBe 2882656334

/-- The chunk value that `Chunk::try_from` actually produces on
`fixtureFrame`: the stored CRC is `crc32fast::hash` of the payload alone. -/
def fixtureChunk : Chunk :=
  ⟨42, ⟨rustBytes⟩, msgBytes, 4220142316⟩

/-- Abbreviation for the parsed length field: bytes 0..4 big-endian. -/
def headerLength (v : List Nat) : Nat := u32FromBe (sliceTD v 0 4)

/-- The chunk `Chunk::try_from` builds when all checks pass. -/
def parsedChunkOf (v : List Nat) : Chunk :=
  ⟨headerLength v, ⟨sliceTD v 4 8⟩, sliceTD v 8 (8 + headerLength v),
    crc32 (sliceTD v 8 (8 + headerLength v))⟩

/-- A 50-byte buffer: length field 42, tag `RuSt`, 42 payload bytes, and no
trailing CRC field at all. -/
def frameNoCrcTrailer : List Nat := u32ToBe 42 ++ rustBytes ++ msgBytes

/-- The fixture frame with its wire CRC field replaced by `2882656333`
(off by one), exactly as in the test `test_invalid_chunk_from_bytes`. -/
def tamperedFrame : List Nat :=
  u32ToBe 42 ++ rustBytes ++ msgBytes ++ u32ToBe 2882656333

/-- The fixture chunk as the spec considers valid: length 42 equals the
payload length, and the stored CRC `2882656334` is the CRC-32 over
`chunk_type.bytes ++ data`. -/
def validChunk : Chunk := ⟨42, ⟨rustBytes⟩, msgBytes, 2882656334⟩

/-! ### Helper lemmas about slicing and the parser -/

theorem sliceTD_length (v : List Nat) (a b : Nat) :
    (sliceTD v a b).length = min (b - a) (v.length - a) := by
  simp [sliceTD]

theorem sliceTD_zero_four (v : List Nat) (h : 12 ≤ v.length) :
    (sliceTD v 0 4).length = 4 := by
  rw [sliceTD_length]; omega

theorem sliceTD_four_eight (v : List Nat) (h : 12 ≤ v.length) :
    (sliceTD v 4 8).length = 4 := by
  rw [sliceTD_length]; omega

theorem tryInto4_of_length (v : List Nat) (h : v.length = 4) :
    tryInto4 v = some v := by
  simp [tryInto4, h]

theorem try_from_err_short (v : List Nat) (h : v.length < 12) :
    Chunk.try_from v = .error .InvalidArray := by
  unfold Chunk.try_from
  rw [if_pos h]

theorem try_from_err_type (v : List Nat) (h12 : 12 ≤ v.length)
    (hty : (sliceTD v 4 8).all isAsciiAlphabetic = false) :
    Chunk.try_from v = .error .InvalidArray := by
  unfold Chunk.try_from
  rw [if_neg (by omega), tryInto4_of_length _ (sliceTD_zero_four v h12),
    tryInto4_of_length _ (sliceTD_four_eight v h12)]
  simp [ChunkType.try_from, hty]

theorem try_from_err_len (v : List Nat) (h12 : 12 ≤ v.length)
    (hty : (sliceTD v 4 8).all isAsciiAlphabetic = true)
    (hlen : v.length < 8 + headerLength v) :
    Chunk.try_from v = .error .InvalidArray := by
  unfold Chunk.try_from
  rw [if_neg (by omega), tryInto4_of_length _ (sliceTD_zero_four v h12),
    tryInto4_of_length _ (sliceTD_four_eight v h12)]
  simp only [ChunkType.try_from, hty, if_true]
  have hlen2 : v.length < 8 + u32FromBe (sliceTD v 0 4) := hlen
  rw [if_pos hlen2]

theorem try_from_ok (v : List Nat) (h12 : 12 ≤ v.length)
    (hty : (sliceTD v 4 8).all isAsciiAlphabetic = true)
    (hlen : 8 + headerLength v ≤ v.length) :
    Chunk.try_from v = .ok (parsedChunkOf v) := by
  unfold Chunk.try_from
  rw [if_neg (by omega), tryInto4_of_length _ (sliceTD_zero_four v h12),
    tryInto4_of_length _ (sliceTD_four_eight v h12)]
  simp only [ChunkType.try_from, hty, if_true]
  rw [if_neg (by unfold headerLength at hlen; omega)]
  rfl

/-- Complete characterization of parser success. -/
theorem try_from_ok_iff (v : List Nat) (c : Chunk) :
    Chunk.try_from v = .ok c ↔
      12 ≤ v.length ∧ (sliceTD v 4 8).all isAsciiAlphabetic = true ∧
      8 + headerLength v ≤ v.length ∧ c = parsedChunkOf v := by
  constructor
  · intro h
    by_cases h12 : 12 ≤ v.length
    · by_cases hty : (sliceTD v 4 8).all isAsciiAlphabetic = true
      · by_cases hlen : 8 + headerLength v ≤ v.length
        · refine ⟨h12, hty, hlen, ?_⟩
          rw [try_from_ok v h12 hty hlen] at h
          exact (Except.ok.inj h).symm
        · rw [try_from_err_len v h12 hty (by omega)] at h
          exact absurd h (by simp)
      · rw [try_from_err_type v h12 (by simpa using hty)] at h
        exact absurd h (by simp)
    · rw [try_from_err_short v (by omega)] at h
      exact absurd h (by simp)
  · rintro ⟨h12, hty, hlen, rfl⟩
    exact try_from_ok v h12 hty hlen

/-! ### Claim C9: the parser is total (no reachable panic) -/

/-- C9.  `TryFrom<&[u8]> for Chunk` is total: on every input the
bounds-checked parser, in which `none` marks a slicing panic, returns
`some` of the result of the total parser — every slice index the source
takes is covered by a preceding length check, so parsing never panics and
always returns `Ok` or `Err`. -/
theorem chunk_try_from_total (value : List Nat) :
    Chunk.try_from_checked value = some (Chunk.try_from value) := by
  unfold Chunk.try_from_checked Chunk.try_from
  by_cases h12 : value.length < 12
  · rw [if_pos h12, if_pos h12]
  · have h1 : rustSlice value 0 4 = some (sliceTD value 0 4) := by
      rw [rustSlice, if_pos (by omega)]
    have h2 : rustSlice value 4 8 = some (sliceTD value 4 8) := by
      rw [rustSlice, if_pos (by omega)]
    simp only [if_neg h12, h1, h2]
    cases hti : tryInto4 (sliceTD value 0 4) with
    | none => rfl
    | some length_bytes =>
      simp only []
      cases htj : tryInto4 (sliceTD value 4 8) with
      | none => rfl
      | some chunk_bytes =>
        simp only []
        cases htf : ChunkType.try_from chunk_bytes with
        | error e => rfl
        | ok chunk_type =>
          simp only []
          by_cases hlen : value.length < 8 + u32FromBe length_bytes
          · simp [hlen]
          · have h3 : rustSlice value 8 (8 + u32FromBe length_bytes) =
                some (sliceTD value 8 (8 + u32FromBe length_bytes)) := by
              rw [rustSlice, if_pos (by omega)]
            simp [hlen, h3]

/-! ### Claim C10: the parse result depends only on the first frame bytes -/

/-- C10.  The parse result depends only on bytes `[0, 8 + length)` of the
input: if two inputs are both accepted by `Chunk::try_from` and agree on
that prefix, the resulting chunks have identical length, type, data and
CRC — the trailing on-wire CRC field and anything after it never influence
the result. -/
theorem chunk_try_from_depends_only_on_prefix (v1 v2 : List Nat) (c1 c2 : Chunk)
    (h1 : Chunk.try_from v1 = .ok c1) (h2 : Chunk.try_from v2 = .ok c2)
    (hpre : v1.take (8 + c1.length) = v2.take (8 + c2.length)) :
    c1 = c2 := by
  rw [try_from_ok_iff] at h1 h2
  obtain ⟨h12a, htya, hlena, rfl⟩ := h1
  obtain ⟨h12b, htyb, hlenb, rfl⟩ := h2
  simp only [parsedChunkOf] at hpre
  set L1 := headerLength v1 with hL1def
  set L2 := headerLength v2 with hL2def
  have hlen1 : (v1.take (8 + L1)).length = 8 + L1 := by
    rw [List.length_take]; omega
  have hlen2 : (v2.take (8 + L2)).length = 8 + L2 := by
    rw [List.length_take]; omega
  have hL : L1 = L2 := by
    have := hlen1
    rw [hpre, hlen2] at this
    omega
  have h4 : v1.take 4 = v2.take 4 := by
    have h := congrArg (List.take 4) hpre
    rwa [List.take_take, List.take_take, min_eq_left (by omega),
      min_eq_left (by omega)] at h
  have h48 : sliceTD v1 4 8 = sliceTD v2 4 8 := by
    have h := congrArg (fun l => (List.drop 4 l).take 4) hpre
    simp only [List.drop_take, List.take_take] at h
    have e1 : min 4 (8 + L1 - 4) = 4 := by omega
    have e2 : min 4 (8 + L2 - 4) = 4 := by omega
    rw [e1, e2] at h
    simpa [sliceTD] using h
  have hdata : sliceTD v1 8 (8 + L1) = sliceTD v2 8 (8 + L2) := by
    have h := congrArg (List.drop 8) hpre
    rw [List.drop_take, List.drop_take] at h
    have e1 : 8 + L1 - 8 = L1 := by omega
    have e2 : 8 + L2 - 8 = L2 := by omega
    rw [e1, e2] at h
    simpa [sliceTD] using h
  have hhl : headerLength v1 = headerLength v2 := by
    unfold headerLength
    have hs : sliceTD v1 0 4 = sliceTD v2 0 4 := by
      simpa [sliceTD] using h4
    rw [hs]
  simp only [parsedChunkOf]
  rw [← hL1def, ← hL2def]
  rw [hL] at hdata ⊢
  rw [hdata, h48]

/-- Witness for C10: the fixture frame and the same frame with a tampered
CRC trailer agree on their first `8 + 42` bytes and both parse, so the
theorem applies and the parsed chunks coincide. -/
theorem chunk_try_from_depends_only_on_prefix_witness :
    Chunk.try_from fixtureFrame = .ok fixtureChunk ∧
    Chunk.try_from tamperedFrame = .ok fixtureChunk ∧
    fixtureChunk = fixtureChunk :=
  ⟨by rfl, by rfl,
    chunk_try_from_depends_only_on_prefix fixtureFrame tamperedFrame
      fixtureChunk fixtureChunk (by rfl) (by rfl) (by decide)⟩

/-! ### Claim C6: ChunkType construction -/

theorem isAsciiAlphabetic_iff (b : Nat) :
    isAsciiAlphabetic b = true ↔ (65 ≤ b ∧ b ≤ 90) ∨ (97 ≤ b ∧ b ≤ 122) := by
  simp [isAsciiAlphabetic]

theorem all_isAsciiAlphabetic_iff (w : List Nat) :
    w.all isAsciiAlphabetic = true ↔
      ∀ b ∈ w, (65 ≤ b ∧ b ≤ 90) ∨ (97 ≤ b ∧ b ≤ 122) := by
  simp [List.all_eq_true, isAsciiAlphabetic_iff]

theorem utf8EncodeChar_ascii (n : Nat) (h : n < 128) : utf8EncodeChar n = [n] := by
  rw [utf8EncodeChar, if_pos h]

theorem strAsBytes_ascii (s : List Nat) (h : ∀ b ∈ s, b < 128) :
    strAsBytes s = s := by
  induction s with
  | nil => rfl
  | cons a t ih =>
    simp only [strAsBytes, List.map_cons, List.flatten_cons]
    rw [utf8EncodeChar_ascii a (h a (List.mem_cons_self a t))]
    have ht := ih (fun b hb => h b (List.mem_cons_of_mem a hb))
    simp only [strAsBytes] at ht
    rw [ht]
    rfl

/-- C6.  `ChunkType` construction from a 4-byte array succeeds exactly when
every byte is ASCII alphabetic, failing with the array-form error
otherwise, and on success stores the four bytes verbatim so that `bytes()`
returns the input; construction from a string additionally requires the
UTF-8 encoding to be exactly 4 bytes. -/
theorem chunk_type_construction (v s : List Nat) (hv : v.length = 4) :
    ((∀ b ∈ v, (65 ≤ b ∧ b ≤ 90) ∨ (97 ≤ b ∧ b ≤ 122)) →
        ∃ t, ChunkType.try_from v = .ok t ∧ t.bytes = v) ∧
    ((∃ b ∈ v, ¬((65 ≤ b ∧ b ≤ 90) ∨ (97 ≤ b ∧ b ≤ 122))) →
        ChunkType.try_from v = .error .InvalidArray) ∧
    (∀ t, ChunkType.from_str s = .ok t ↔
        ((∀ b ∈ s, (65 ≤ b ∧ b ≤ 90) ∨ (97 ≤ b ∧ b ≤ 122)) ∧
          (strAsBytes s).length = 4 ∧ s.length = 4 ∧ t.bytes = s)) := by
  refine ⟨?_, ?_, ?_⟩
  · intro h
    refine ⟨⟨v⟩, ?_, rfl⟩
    rw [ChunkType.try_from, if_pos ((all_isAsciiAlphabetic_iff v).mpr h)]
  · intro h
    have hna : ¬ (v.all isAsciiAlphabetic = true) := by
      intro hc
      obtain ⟨b, hb, hnb⟩ := h
      exact hnb ((all_isAsciiAlphabetic_iff v).mp hc b hb)
    rw [ChunkType.try_from, if_neg hna]
  · intro t
    constructor
    · intro h
      rw [ChunkType.from_str] at h
      by_cases hca : s.all isAsciiAlphabetic = true
      · rw [if_pos hca] at h
        have hs := (all_isAsciiAlphabetic_iff s).mp hca
        have hascii : ∀ b ∈ s, b < 128 := by
          intro b hb
          have := hs b hb
          omega
        rw [strAsBytes_ascii s hascii] at h
        by_cases hl : s.length = 4
        · rw [tryInto4, if_pos hl] at h
          simp only [] at h
          refine ⟨hs, by rw [strAsBytes_ascii s hascii]; exact hl, hl, ?_⟩
          rw [← Except.ok.inj h]
        · rw [tryInto4, if_neg hl] at h
          exact absurd h (by simp)
      · rw [if_neg hca] at h
        exact absurd h (by simp)
    · rintro ⟨hs, _, hl, hb⟩
      have hca : s.all isAsciiAlphabetic = true := (all_isAsciiAlphabetic_iff s).mpr hs
      have hascii : ∀ b ∈ s, b < 128 := by
        intro b hbm
        have := hs b hbm
        omega
      rw [ChunkType.from_str, if_pos hca, strAsBytes_ascii s hascii, tryInto4, if_pos hl]
      obtain ⟨bs⟩ := t
      have : bs = s := hb
      rw [this]

/-- Witness for C6 at the fixture tag `RuSt`: array construction succeeds
and stores the bytes verbatim. -/
theorem chunk_type_construction_witness :
    ∃ t, ChunkType.try_from [82, 117, 83, 116] = .ok t ∧
      t.bytes = [82, 117, 83, 116] :=
  (chunk_type_construction [82, 117, 83, 116] [82, 117, 83, 116] (by decide)).1
    (by decide)

/-! ### Claim C3: the length guard of the parser -/

/-- Counterexample to C3 as stated: this input is 50 bytes long, shorter
than `8 + length + 4 = 54`, has at least 12 bytes and a valid type tag, yet
`Chunk::try_from` accepts it — the source only requires `8 + length` bytes
and never demands the trailing 4-byte CRC field. -/
theorem try_from_accepts_frame_without_crc_trailer :
    frameNoCrcTrailer.length = 50 ∧ headerLength frameNoCrcTrailer = 42 ∧
    50 < 8 + 42 + 4 ∧
    (sliceTD frameNoCrcTrailer 4 8).all isAsciiAlphabetic = true ∧
    (Chunk.try_from frameNoCrcTrailer).isOk = true := by
  refine ⟨by decide, by decide, by decide, by decide, by decide⟩

/-- C3 amended: for an input of at least 12 bytes with a valid type tag,
`Chunk::try_from` fails with `InvalidArray` exactly when the input is
shorter than `8 + length` bytes — it requires the `length` payload bytes to
be present but does not require the trailing 4-byte CRC field. -/
theorem try_from_length_guard (v : List Nat) (h12 : 12 ≤ v.length)
    (hty : (sliceTD v 4 8).all isAsciiAlphabetic = true) :
    (v.length < 8 + headerLength v → Chunk.try_from v = .error .InvalidArray) ∧
    (8 + headerLength v ≤ v.length → (Chunk.try_from v).isOk = true) := by
  constructor
  · intro h
    exact try_from_err_len v h12 hty h
  · intro h
    rw [try_from_ok v h12 hty h]
    rfl

/-- Witness for the amended C3 at the 50-byte truncated fixture frame. -/
theorem try_from_length_guard_witness :
    (Chunk.try_from frameNoCrcTrailer).isOk = true :=
  (try_from_length_guard frameNoCrcTrailer (by decide) (by decide)).2 (by decide)

/-! ### Claims C1, C2, C4, C5, C7, C8: divergences between code and spec -/

/-- C1.  The stored-CRC invariant fails on the code: `Chunk::new` panics
(`unimplemented!()`) instead of establishing it, and a chunk built by
`Chunk::try_from` from the repository fixture frame stores
`crc32fast::hash(data)` — the CRC of the payload alone — which differs from
the CRC over `chunk_type.bytes ++ data` that the invariant demands.  The
length half of the invariant does hold for parsed chunks. -/
theorem chunk_crc_invariant_violated :
    Chunk.new ⟨rustBytes⟩ msgBytes = none ∧
    Chunk.try_from fixtureFrame = .ok fixtureChunk ∧
    fixtureChunk.length = fixtureChunk.data.length ∧
    fixtureChunk.crc = crc32 fixtureChunk.data ∧
    fixtureChunk.crc ≠ crc32 (fixtureChunk.chunk_type.bytes ++ fixtureChunk.data) :=
  ⟨rfl, by rfl, by decide, by decide, by decide⟩

/-- C2.  Wire-CRC mismatch is not enforced: the tampered frame stores
`2882656333` in its CRC field, which differs both from the CRC over
`type_bytes ++ data` and from the CRC over the data alone, yet
`Chunk::try_from` returns `Ok` — it never reads the wire CRC field, and no
CRC-mismatch error exists in `ChunkError`. -/
theorem wire_crc_not_enforced :
    u32FromBe (sliceTD tamperedFrame 50 54) = 2882656333 ∧
    crc32 (sliceTD tamperedFrame 4 8 ++ sliceTD tamperedFrame 8 50) = 2882656334 ∧
    crc32 (sliceTD tamperedFrame 8 50) = 4220142316 ∧
    Chunk.try_from tamperedFrame = .ok fixtureChunk :=
  ⟨by decide, by decide, by decide, by rfl⟩

/-- C4.  Both round-trip laws fail on the code.  `validChunk` satisfies the
spec's validity invariant, but `try_from (as_bytes validChunk)` yields
`fixtureChunk`, which differs from `validChunk` in the CRC field; and
`as_bytes validChunk` is a well-formed, CRC-consistent frame that
serializing the parse result does not reproduce. -/
theorem chunk_round_trip_fails :
    validChunk.length = validChunk.data.length ∧
    validChunk.crc = crc32 (validChunk.chunk_type.bytes ++ validChunk.data) ∧
    Chunk.try_from validChunk.as_bytes = .ok fixtureChunk ∧
    fixtureChunk ≠ validChunk ∧
    fixtureChunk.as_bytes ≠ validChunk.as_bytes :=
  ⟨by decide, by decide, by rfl, by decide, by decide⟩

/-- C5.  `Chunk::data_as_string` panics instead of failing: on a
non-UTF-8 payload the `from_utf8(..).unwrap()` in the source panics
(modelled as `none`) rather than returning an `InvalidText`-style error,
while on a valid UTF-8 payload it does return exactly the decoded original
text. -/
theorem data_as_string_panics_on_invalid_utf8 :
    Chunk.data_as_string ⟨1, ⟨rustBytes⟩, [255], 4278190080⟩ = none ∧
    Chunk.data_as_string fixtureChunk = some (.ok msgBytes) :=
  ⟨rfl, by rfl⟩

/-- C7.  Every case-bit classifier of `ChunkType` is `unimplemented!()` in
the source: on the fixture tag `RuSt` each of the five predicates panics
(modelled as `none`) instead of returning the booleans the claim lists
(true, false, true, true, true). -/
theorem chunk_type_classifiers_unimplemented :
    ChunkType.is_critical ⟨rustBytes⟩ = none ∧
    ChunkType.is_public ⟨rustBytes⟩ = none ∧
    ChunkType.is_reserved_bit_valid ⟨rustBytes⟩ = none ∧
    ChunkType.is_safe_to_copy ⟨rustBytes⟩ = none ∧
    ChunkType.is_valid ⟨rustBytes⟩ = none :=
  ⟨rfl, rfl, rfl, rfl, rfl⟩

/-- C8.  The fixture numbers from the claim fail on the code: `Chunk::new`
panics (`unimplemented!()`) instead of yielding length 42 and CRC
`2882656334`, and parsing the 54-byte fixture frame stores CRC
`4220142316` (the CRC-32 of the payload alone) rather than `2882656334`,
which is the CRC-32 PNG parameterization of `type bytes ++ data`. -/
theorem fixture_crc_numbers :
    Chunk.new ⟨rustBytes⟩ msgBytes = none ∧
    fixtureFrame.length = 54 ∧
    Chunk.try_from fixtureFrame = .ok fixtureChunk ∧
    fixtureChunk.crc = 4220142316 ∧
    crc32 (rustBytes ++ msgBytes) = 2882656334 ∧
    (4220142316 : Nat) ≠ 2882656334 :=
  ⟨rfl, by decide, by rfl, by decide, by decide, by decide⟩

end PngSecret
